import Mathlib

/-
Verification of the Target resolution and runtime module composition
subsystem (src/Target.cpp of the Halide repository).

The embedding models:
 * the Target value type (OS, architecture, bit width, feature set);
   the feature bitmask `uint64_t features` with the distinct flag bits
   Target::SSE41, Target::AVX, Target::AVX2, Target::CUDA, Target::OpenCL,
   Target::GPUDebug is embedded as a record of six booleans, with
   bitwise-or of masks becoming per-flag disjunction;
 * get_host_target, compiled for an x86 host (the `#else` branch of the
   `#ifdef __arm__` split in the source): the cpuid instruction is passed
   in as a function from (leaf, subleaf) to the four result registers,
   the compile-time OS and pointer width as parameters, and the fatal
   `assert(have_sse2 ...)` as an `Except`-error carrying the assert text;
 * get_target_from_environment: the HL_TARGET environment variable is
   passed in as an `Option String`; the hyphen-splitting loop, the
   token-matching if/else chain, the three duplicate-category asserts and
   the unrecognized-token fatal path (modelled as `Except` errors) follow
   the source line by line;
 * get_initial_module_for_target: each `get_initmod_*` call is a symbolic
   module constructor (the CPP initmods carry their `bits_64` flag); the
   function's result is the ordered list of selected modules, which the
   source links pairwise into modules[0], producing one merged unit.
-/

namespace HalideTarget

/-- The four registers returned by the cpuid instruction (eax, ebx, ecx, edx),
indexed in the source as info[0]..info[3]. -/
structure CpuidRegs where
  eax : Nat
  ebx : Nat
  ecx : Nat
  edx : Nat
deriving DecidableEq, Repr

/-- Target::OS enumeration, as used in src/Target.cpp. -/
inductive OS where
  | Linux
  | Windows
  | OSX
  | Android
  | IOS
  | NaCl
  | OSUnknown
deriving DecidableEq, Repr

/-- Target::Arch enumeration, as used in src/Target.cpp. -/
inductive Arch where
  | X86
  | ARM
deriving DecidableEq, Repr

/-- The Target feature bitmask, one boolean per distinct flag bit. -/
structure Features where
  sse41 : Bool
  avx : Bool
  avx2 : Bool
  cuda : Bool
  opencl : Bool
  gpu_debug : Bool
deriving DecidableEq, Repr

/-- The zero feature mask (`features = 0`). -/
def Features.none : Features :=
  ⟨false, false, false, false, false, false⟩

/-- The Target value type: os, arch, bits, features. -/
structure Target where
  os : OS
  arch : Arch
  bits : Nat
  features : Features
deriving DecidableEq, Repr

/-- get_host_target, as compiled for an x86 host (the non-`__arm__` branch).
`os` is the compile-time OS, `use_64_bits` is `sizeof(size_t) == 8`, and
`cpu leaf extra` is the register quadruple the cpuid instruction returns for
that query.  The fatal `assert(have_sse2 && ...)` is the `Except.error`
carrying the assert's message.  NOTE (faithful to the source): after issuing
the second cpuid query with leaf 7 into `info2`, the source tests
`info[2] & (1 << 5)` — bit 5 of register C of the FIRST query's result —
so `info2` is dead and `have_avx2` is decoded from the first query. -/
def get_host_target (os : OS) (use_64_bits : Bool)
    (cpu : Nat → Nat → CpuidRegs) : Except String Target :=
  let bits : Nat := if use_64_bits then 64 else 32
  let arch := Arch.X86
  let info := cpu 1 0
  let have_sse41 := info.ecx.testBit 19
  let have_sse2 := info.edx.testBit 26
  let have_avx := info.ecx.testBit 28
  let have_f16 := info.ecx.testBit 29
  let have_rdrand := info.ecx.testBit 30
  if ¬ have_sse2 then
    Except.error "The x86 backend assumes at least sse2 support"
  else
    let features : Features :=
      { Features.none with sse41 := have_sse41, avx := have_avx }
    let features :=
      if use_64_bits && have_avx && have_f16 && have_rdrand then
        let info2 := cpu 7 0
        let have_avx2 := info.ecx.testBit 5
        if have_avx2 then { features with avx2 := true } else features
      else features
    Except.ok ⟨os, arch, bits, features⟩

/-- The hyphen-splitting loop of get_target_from_environment
(`while ((first_dash = rest.find('-')) != string::npos) ...` followed by
`tokens.push_back(rest)`): characters seen so far before the next dash
accumulate in `acc` (in reverse); a dash emits the accumulated segment;
the final `rest` is pushed as the last token.  Empty segments are emitted
like any other. -/
def splitDash : List Char → List Char → List (List Char)
  | [], acc => [acc.reverse]
  | c :: rest, acc =>
    if c = '-' then acc.reverse :: splitDash rest []
    else splitDash rest (c :: acc)

/-- The token list of an override string, as Strings. -/
def tokensOf (s : String) : List String :=
  (splitDash s.data []).map (fun l => ⟨l⟩)

/-- The per-token branch of the parse loop's if/else chain: for a recognized
token, the update it applies to the Target under construction plus the
`(is_arch, is_os, is_bits)` flags the branch sets; `Option.none` is the
final `else` (unrecognized token) branch. -/
def matchTok (tok : String) : Option ((Target → Target) × Bool × Bool × Bool) :=
  if tok = "x86" then
    some (fun t => { t with arch := Arch.X86 }, true, false, false)
  else if tok = "arm" then
    some (fun t => { t with arch := Arch.ARM }, true, false, false)
  else if tok = "32" then
    some (fun t => { t with bits := 32 }, false, false, true)
  else if tok = "64" then
    some (fun t => { t with bits := 64 }, false, false, true)
  else if tok = "linux" then
    some (fun t => { t with os := OS.Linux }, false, true, false)
  else if tok = "windows" then
    some (fun t => { t with os := OS.Windows }, false, true, false)
  else if tok = "nacl" then
    some (fun t => { t with os := OS.NaCl }, false, true, false)
  else if tok = "osx" then
    some (fun t => { t with os := OS.OSX }, false, true, false)
  else if tok = "android" then
    some (fun t => { t with os := OS.Android }, false, true, false)
  else if tok = "ios" then
    some (fun t => { t with os := OS.IOS }, false, true, false)
  else if tok = "sse41" then
    some (fun t => { t with features := { t.features with sse41 := true } },
          false, false, false)
  else if tok = "avx" then
    some (fun t => { t with features :=
            { t.features with sse41 := true, avx := true } },
          false, false, false)
  else if tok = "avx2" then
    some (fun t => { t with features :=
            { t.features with sse41 := true, avx := true, avx2 := true } },
          false, false, false)
  else if tok = "cuda" ∨ tok = "ptx" then
    some (fun t => { t with features := { t.features with cuda := true } },
          false, false, false)
  else if tok = "opencl" then
    some (fun t => { t with features := { t.features with opencl := true } },
          false, false, false)
  else if tok = "gpu_debug" then
    some (fun t => { t with features := { t.features with gpu_debug := true } },
          false, false, false)
  else
    Option.none

/-- A token is recognized when it hits a non-`else` branch of the chain. -/
def recognizedTok (tok : String) : Bool :=
  (matchTok tok).isSome

/-- The fatal outcomes of parsing HL_TARGET: the `std::cerr` + `assert(false)`
unrecognized-token path and the three `assert(!..._specified && "...")`
duplicate-category paths. -/
inductive ParseError where
  | unrecognized
  | osTwice
  | archTwice
  | bitsTwice
deriving DecidableEq, Repr

/-- The expected-grammar portion of the unrecognized-token diagnostic,
exactly as the source streams it to std::cerr. -/
def expectedGrammar : String :=
  "Expected format is arch-os-feature1-feature2-... " ++
  "Where arch is host, x86-32, x86-64, arm-32, arm-64, " ++
  "and os is host, linux, windows, osx, nacl, ios, android. " ++
  "Features include sse41, avx, avx2, cuda, and opencl.\n"

/-- The full unrecognized-token diagnostic written to std::cerr: it echoes
the whole HL_TARGET string followed by the expected grammar. -/
def unrecognizedDiagnostic (target : String) : String :=
  "Did not understand HL_TARGET=" ++ target ++ "\n" ++ expectedGrammar

/-- The message attached to each fatal parse outcome: the unrecognized-token
diagnostic takes the full override string; the duplicate-category asserts
carry their literal assert strings. -/
def parseErrorMessage (target : String) : ParseError → String
  | ParseError.unrecognized => unrecognizedDiagnostic target
  | ParseError.osTwice => "Target string specifies OS twice"
  | ParseError.archTwice => "Target string specifies architecture twice"
  | ParseError.bitsTwice => "Target string specifies bits twice"

/-- The parse-loop state: the Target under construction plus the
os_specified / arch_specified / bits_specified flags. -/
structure ParseState where
  t : Target
  os_specified : Bool
  arch_specified : Bool
  bits_specified : Bool

/-- One iteration of the parse loop: match the token against the chain
(else-branch: the unrecognized fatal error), then run the three
duplicate-category asserts in source order (OS, then architecture, then
bits) and update the flags. -/
def stepToken (st : ParseState) (tok : String) : Except ParseError ParseState :=
  match matchTok tok with
  | Option.none => Except.error ParseError.unrecognized
  | Option.some (f, is_arch, is_os, is_bits) =>
    if is_os && st.os_specified then Except.error ParseError.osTwice
    else if is_arch && st.arch_specified then Except.error ParseError.archTwice
    else if is_bits && st.bits_specified then Except.error ParseError.bitsTwice
    else Except.ok ⟨f st.t, st.os_specified || is_os,
                    st.arch_specified || is_arch, st.bits_specified || is_bits⟩

/-- The parse loop over all tokens; a fatal outcome aborts immediately
(the process never returns from assert(false)). -/
def parseTokens : ParseState → List String → Except ParseError Target
  | st, [] => Except.ok st.t
  | st, tok :: rest =>
    match stepToken st tok with
    | Except.error e => Except.error e
    | Except.ok st2 => parseTokens st2 rest

/-- get_target_from_environment: `hl` is the value of the HL_TARGET
environment variable (`Option.none` when unset, in which case the host
target is returned unchanged).  When set, the host target's features are
first cleared (`t.features = 0`), the string is split on hyphens, and the
tokens are applied left to right. -/
def get_target_from_environment (host : Target) (hl : Option String) :
    Except ParseError Target :=
  match hl with
  | Option.none => Except.ok host
  | Option.some target =>
    let t := { host with features := Features.none }
    parseTokens ⟨t, false, false, false⟩ (tokensOf target)

/-- The runtime modules returned by the `get_initmod_*` accessors used in
get_initial_module_for_target.  CPP initmods take the `bits_64` flag (they
come in a 32-bit and a 64-bit variant); LL initmods have a single variant. -/
inductive Mod where
  | linux_clock (bits_64 : Bool)
  | posix_io (bits_64 : Bool)
  | linux_host_cpu_count (bits_64 : Bool)
  | posix_thread_pool (bits_64 : Bool)
  | posix_clock (bits_64 : Bool)
  | osx_io (bits_64 : Bool)
  | gcd_thread_pool (bits_64 : Bool)
  | android_clock (bits_64 : Bool)
  | android_io (bits_64 : Bool)
  | android_host_cpu_count (bits_64 : Bool)
  | fake_thread_pool (bits_64 : Bool)
  | ios_io (bits_64 : Bool)
  | posix_math (bits_64 : Bool)
  | posix_math_ll
  | tracing (bits_64 : Bool)
  | write_debug_image (bits_64 : Bool)
  | posix_allocator (bits_64 : Bool)
  | posix_error_handler (bits_64 : Bool)
  | x86_ll
  | x86_sse41_ll
  | x86_avx_ll
  | cuda (bits_64 : Bool)
  | cuda_debug (bits_64 : Bool)
  | opencl (bits_64 : Bool)
  | opencl_debug (bits_64 : Bool)
  | nogpu (bits_64 : Bool)
deriving DecidableEq, Repr

/-- The ordered list of modules get_initial_module_for_target pushes onto
`modules`: the OS-dependent bundle, the six always-used modules, the
optional architecture/feature modules, and the accelerator choice. -/
def runtime_modules (t : Target) : List Mod :=
  let bits_64 : Bool := t.bits == 64
  let os_modules : List Mod :=
    if t.os = OS.Linux then
      [Mod.linux_clock bits_64, Mod.posix_io bits_64,
       Mod.linux_host_cpu_count bits_64, Mod.posix_thread_pool bits_64]
    else if t.os = OS.OSX then
      [Mod.posix_clock bits_64, Mod.osx_io bits_64,
       Mod.gcd_thread_pool bits_64]
    else if t.os = OS.Android then
      [Mod.android_clock bits_64, Mod.android_io bits_64,
       Mod.android_host_cpu_count bits_64, Mod.posix_thread_pool bits_64]
    else if t.os = OS.Windows then
      [Mod.posix_clock bits_64, Mod.posix_io bits_64,
       Mod.fake_thread_pool bits_64]
    else if t.os = OS.IOS then
      [Mod.posix_clock bits_64, Mod.ios_io bits_64,
       Mod.gcd_thread_pool bits_64]
    else if t.os = OS.NaCl then
      [Mod.posix_clock bits_64, Mod.posix_io bits_64,
       Mod.linux_host_cpu_count bits_64, Mod.posix_thread_pool bits_64]
    else []
  let always_modules : List Mod :=
    [Mod.posix_math bits_64, Mod.posix_math_ll, Mod.tracing bits_64,
     Mod.write_debug_image bits_64, Mod.posix_allocator bits_64,
     Mod.posix_error_handler bits_64]
  let optional_modules : List Mod :=
    (if t.arch = Arch.X86 then [Mod.x86_ll] else []) ++
    (if t.features.sse41 then [Mod.x86_sse41_ll] else []) ++
    (if t.features.avx then [Mod.x86_avx_ll] else [])
  let accel_modules : List Mod :=
    if t.features.cuda then
      if t.features.gpu_debug then [Mod.cuda_debug bits_64]
      else [Mod.cuda bits_64]
    else if t.features.opencl then
      if t.features.gpu_debug then [Mod.opencl_debug bits_64]
      else [Mod.opencl bits_64]
    else [Mod.nogpu bits_64]
  os_modules ++ always_modules ++ optional_modules ++ accel_modules

/-- get_initial_module_for_target: after the `assert(t.bits == 32 ||
t.bits == 64)` (modelled as `Option.none`), every selected module is linked
pairwise into modules[0], so the single merged unit returned is the ordered
fold of the whole selection; we observe it as that ordered list. -/
def get_initial_module_for_target (t : Target) : Option (List Mod) :=
  if t.bits == 32 || t.bits == 64 then
    Option.some (runtime_modules t)
  else
    Option.none

/-- Whether a module is one of the accelerator modules chosen in the
cuda / opencl / nogpu if-else chain. -/
def isAccelMod : Mod → Bool
  | Mod.cuda _ => true
  | Mod.cuda_debug _ => true
  | Mod.opencl _ => true
  | Mod.opencl_debug _ => true
  | Mod.nogpu _ => true
  | _ => false

/-- Whether a token takes an `is_os = true` branch of the chain. -/
def tokIsOS (tok : String) : Bool :=
  match matchTok tok with
  | Option.some (_, _, is_os, _) => is_os
  | Option.none => false

/-- Whether a token takes an `is_arch = true` branch of the chain. -/
def tokIsArch (tok : String) : Bool :=
  match matchTok tok with
  | Option.some (_, is_arch, _, _) => is_arch
  | Option.none => false

/-- Whether a token takes an `is_bits = true` branch of the chain. -/
def tokIsBits (tok : String) : Bool :=
  match matchTok tok with
  | Option.some (_, _, _, is_bits) => is_bits
  | Option.none => false

/-- How many tokens of the list are OS tokens. -/
def countOSToks (toks : List String) : Nat :=
  (toks.filter tokIsOS).length

/-- How many tokens of the list are architecture tokens. -/
def countArchToks (toks : List String) : Nat :=
  (toks.filter tokIsArch).length

/-- How many tokens of the list are bits tokens. -/
def countBitsToks (toks : List String) : Nat :=
  (toks.filter tokIsBits).length

/-- Whether `needle` is an initial segment of `hay`. -/
def prefListOf : List Char → List Char → Bool
  | [], _ => true
  | _ :: _, [] => false
  | a :: as, b :: bs => a = b && prefListOf as bs

/-- Whether `needle` occurs contiguously anywhere inside `hay`. -/
def containsSub : List Char → List Char → Bool
  | needle, [] => prefListOf needle []
  | needle, c :: rest => prefListOf needle (c :: rest) || containsSub needle rest

/-- Whether the character list has two consecutive hyphens. -/
def hasDoubleDash : List Char → Bool
  | a :: b :: rest => (a = '-' && b = '-') || hasDoubleDash (b :: rest)
  | _ => false

/-- Whether the character list ends in a hyphen. -/
def endsWithDash : List Char → Bool
  | [] => false
  | [c] => c = '-'
  | _ :: c :: rest => endsWithDash (c :: rest)

/-- A cpuid responder reporting nothing at all (every register zero);
in particular the SSE2 bit (bit 26 of register D of leaf 1) is absent. -/
def cpuAllZero : Nat → Nat → CpuidRegs :=
  fun _ _ => ⟨0, 0, 0, 0⟩

/-- A cpuid responder for a host whose first query (leaf 1) reports SSE4.1
(bit 19 of C), AVX (bit 28), half-float (bit 29), hardware random (bit 30)
and SSE2 (bit 26 of D) — but NOT bit 5 of C — and whose second query
(leaf 7, sub-leaf 0) reports bit 5 of register C set (AVX2 present). -/
def cpuEx : Nat → Nat → CpuidRegs :=
  fun leaf _ =>
    if leaf = 1 then ⟨0, 0, 2 ^ 19 + 2 ^ 28 + 2 ^ 29 + 2 ^ 30, 2 ^ 26⟩
    else if leaf = 7 then ⟨0, 0, 2 ^ 5, 0⟩
    else ⟨0, 0, 0, 0⟩

/-- A cpuid responder like `cpuEx` but with bit 5 of register C set on the
FIRST query (leaf 1) and clear on the second query (leaf 7): the second
query reports AVX2 absent. -/
def cpuEx2 : Nat → Nat → CpuidRegs :=
  fun leaf _ =>
    if leaf = 1 then ⟨0, 0, 2 ^ 5 + 2 ^ 19 + 2 ^ 28 + 2 ^ 29 + 2 ^ 30, 2 ^ 26⟩
    else if leaf = 7 then ⟨0, 0, 0, 0⟩
    else ⟨0, 0, 0, 0⟩

/-- A concrete host target used to instantiate universally quantified
claims. -/
def hostEx : Target :=
  ⟨OS.Linux, Arch.X86, 64, ⟨true, true, false, false, false, false⟩⟩

/-- A target with both the CUDA and the OpenCL feature bits set. -/
def tCudaOpenCL : Target :=
  ⟨OS.Linux, Arch.X86, 64, ⟨false, false, false, true, true, false⟩⟩

/-- The target of claim C6: os=Linux, arch=X86, bits=64, empty features. -/
def tLinuxX86_64 : Target :=
  ⟨OS.Linux, Arch.X86, 64, Features.none⟩

/-- The module selection claim C6 expects for `tLinuxX86_64`: the Linux
bundle, the six always-included modules, the x86 low-level base module,
and the no-GPU module, all in 64-bit variants. -/
def linuxX86_64Modules : List Mod :=
  [Mod.linux_clock true, Mod.posix_io true, Mod.linux_host_cpu_count true,
   Mod.posix_thread_pool true, Mod.posix_math true, Mod.posix_math_ll,
   Mod.tracing true, Mod.write_debug_image true, Mod.posix_allocator true,
   Mod.posix_error_handler true, Mod.x86_ll, Mod.nogpu true]

/-- C9: on x86, when the first cpuid query (leaf 1) reports the SSE2 bit
(bit 26 of register D) absent, get_host_target aborts fatally with the
diagnostic of its assert and never returns a Target, for every compile-time
OS, pointer width, and cpuid responder. -/
theorem missing_sse2_fatal (os : OS) (use_64_bits : Bool)
    (cpu : Nat → Nat → CpuidRegs)
    (h : Nat.testBit (cpu 1 0).edx 26 = false) :
    get_host_target os use_64_bits cpu =
      Except.error "The x86 backend assumes at least sse2 support" := by
  simp [get_host_target, h]

/-- Witness for C9: the all-zero cpuid responder lacks the SSE2 bit, and
get_host_target aborts on it. -/
theorem missing_sse2_fatal_witness :
    Nat.testBit (cpuAllZero 1 0).edx 26 = false ∧
    get_host_target OS.Linux true cpuAllZero =
      Except.error "The x86 backend assumes at least sse2 support" :=
  ⟨by decide, missing_sse2_fatal OS.Linux true cpuAllZero (by decide)⟩

/-- C1 (refuting the claim on the code): get_host_target decodes AVX2 from
bit 5 of register C of the FIRST cpuid query's result, not the second.
On `cpuEx` — 64-bit pointer width, first query reporting AVX, half-float
and hardware random, second query (leaf 7, sub-leaf 0) reporting bit 5 of
register C set — the returned feature set does NOT contain AVX2; on
`cpuEx2` — identical except bit 5 of C is set on the first query and clear
on the second — the returned feature set DOES contain AVX2. -/
theorem avx2_decoded_from_first_cpuid_query :
    Nat.testBit (cpuEx 7 0).ecx 5 = true ∧
    get_host_target OS.Linux true cpuEx =
      Except.ok ⟨OS.Linux, Arch.X86, 64,
        ⟨true, true, false, false, false, false⟩⟩ ∧
    Nat.testBit (cpuEx2 7 0).ecx 5 = false ∧
    get_host_target OS.Linux true cpuEx2 =
      Except.ok ⟨OS.Linux, Arch.X86, 64,
        ⟨true, true, true, false, false, false⟩⟩ :=
  ⟨by decide, rfl, by decide, rfl⟩

/-- C3: for every base Target, parsing the override string "avx2" yields a
Target whose feature set is exactly {SSE4.1, AVX, AVX2}: the base's prior
features are cleared and the avx2 token cascades to avx and sse41. -/
theorem override_avx2_feature_cascade (base : Target) :
    get_target_from_environment base (Option.some "avx2") =
      Except.ok { base with
        features := ⟨true, true, true, false, false, false⟩ } :=
  rfl

/-- C7: for every base Target, parsing "sse41-avx" yields exactly the same
result as parsing "avx" (re-specifying an implied feature flag is an
idempotent union), and that common feature set is exactly {SSE4.1, AVX}. -/
theorem override_sse41_avx_idempotent (base : Target) :
    get_target_from_environment base (Option.some "sse41-avx") =
      get_target_from_environment base (Option.some "avx") ∧
    get_target_from_environment base (Option.some "sse41-avx") =
      Except.ok { base with
        features := ⟨true, true, false, false, false, false⟩ } :=
  ⟨rfl, rfl⟩

/-- C6: for os=Linux, arch=X86, bits=64, empty features,
get_initial_module_for_target selects exactly the Linux bundle, the six
always-included modules, the x86 low-level base module and the no-GPU
module, merged into exactly one unit with no module selected twice. -/
theorem linux_x86_64_module_selection :
    get_initial_module_for_target tLinuxX86_64 =
      Option.some linuxX86_64Modules ∧
    linuxX86_64Modules.Nodup :=
  ⟨by decide, by decide⟩

/-- C2: for every Target with valid bits, get_initial_module_for_target
returns exactly one merged unit, and its selection contains exactly one
accelerator module: the CUDA module (debug variant iff GPUDebug) when CUDA
is set — in particular also when OpenCL is simultaneously set — else the
OpenCL module (debug variant iff GPUDebug) when OpenCL is set, else the
no-GPU module; never zero and never two accelerator modules. -/
theorem accelerator_module_exactly_one (t : Target)
    (h : t.bits = 32 ∨ t.bits = 64) :
    get_initial_module_for_target t = Option.some (runtime_modules t) ∧
    (runtime_modules t).filter isAccelMod =
      [if t.features.cuda then
         (if t.features.gpu_debug then Mod.cuda_debug (t.bits == 64)
          else Mod.cuda (t.bits == 64))
       else if t.features.opencl then
         (if t.features.gpu_debug then Mod.opencl_debug (t.bits == 64)
          else Mod.opencl (t.bits == 64))
       else Mod.nogpu (t.bits == 64)] := by
  constructor
  · rcases h with h | h <;> simp [get_initial_module_for_target, h]
  · obtain ⟨os, arch, bits, f⟩ := t
    obtain ⟨s41, avx, avx2, cu, ocl, gd⟩ := f
    cases os <;> cases arch <;> cases s41 <;> cases avx <;> cases cu <;>
      cases ocl <;> cases gd <;> rfl

/-- Witness for C2, at a target with both CUDA and OpenCL set: the CUDA
module is deterministically the one accelerator module selected. -/
theorem accelerator_module_exactly_one_witness :
    (tCudaOpenCL.bits = 32 ∨ tCudaOpenCL.bits = 64) ∧
    (get_initial_module_for_target tCudaOpenCL =
       Option.some (runtime_modules tCudaOpenCL) ∧
     (runtime_modules tCudaOpenCL).filter isAccelMod = [Mod.cuda true]) :=
  ⟨Or.inr rfl, accelerator_module_exactly_one tCudaOpenCL (Or.inr rfl)⟩

lemma matchTok_eq_none {tok : String} (h : recognizedTok tok = false) :
    matchTok tok = Option.none := by
  unfold recognizedTok at h
  cases hm : matchTok tok with
  | none => rfl
  | some v => rw [hm] at h; simp at h

lemma stepToken_unrec (st : ParseState) {tok : String}
    (h : recognizedTok tok = false) :
    stepToken st tok = Except.error ParseError.unrecognized := by
  unfold stepToken
  rw [matchTok_eq_none h]

lemma parseTokens_err_of_unrec {toks : List String} {tok : String}
    (h1 : tok ∈ toks) (h2 : recognizedTok tok = false) (st : ParseState) :
    ∃ e, parseTokens st toks = Except.error e := by
  induction toks generalizing st with
  | nil => simp at h1
  | cons a rest ih =>
    rcases List.mem_cons.mp h1 with rfl | hmem
    · exact ⟨ParseError.unrecognized,
        by simp [parseTokens, stepToken_unrec st h2]⟩
    · unfold parseTokens
      cases hs : stepToken st a with
      | error e => exact ⟨e, rfl⟩
      | ok st2 =>
        obtain ⟨e, he⟩ := ih hmem st2
        exact ⟨e, by simp [he]⟩

lemma data_append (a b : String) : (a ++ b).data = a.data ++ b.data := by
  cases a; cases b; rfl

lemma prefListOf_self_append (l post : List Char) :
    prefListOf l (l ++ post) = true := by
  induction l with
  | nil => rfl
  | cons c cs ih => simp [prefListOf, ih]

lemma containsSub_of_pref {needle hay : List Char}
    (h : prefListOf needle hay = true) : containsSub needle hay = true := by
  cases hay with
  | nil => exact h
  | cons c rest => simp [containsSub, h]

lemma containsSub_append_mid (pre l post : List Char) :
    containsSub l (pre ++ (l ++ post)) = true := by
  induction pre with
  | nil => exact containsSub_of_pref (prefListOf_self_append l post)
  | cons c cs ih => simp [containsSub, ih]

lemma diag_data (s : String) :
    (unrecognizedDiagnostic s).data =
      ("Did not understand HL_TARGET=").data ++
        (s.data ++ ("\n" ++ expectedGrammar).data) := by
  unfold unrecognizedDiagnostic
  simp [data_append, List.append_assoc]

lemma stepToken_ok_flags {st st' : ParseState} {tok : String}
    (h : stepToken st tok = Except.ok st') :
    (st'.os_specified = (st.os_specified || tokIsOS tok) ∧
      (tokIsOS tok && st.os_specified) = false) ∧
    (st'.arch_specified = (st.arch_specified || tokIsArch tok) ∧
      (tokIsArch tok && st.arch_specified) = false) ∧
    (st'.bits_specified = (st.bits_specified || tokIsBits tok) ∧
      (tokIsBits tok && st.bits_specified) = false) := by
  unfold stepToken at h
  cases hm : matchTok tok with
  | none => rw [hm] at h; exact Except.noConfusion h
  | some v =>
    obtain ⟨f, a, o, b⟩ := v
    simp only [hm] at h
    simp only [tokIsOS, tokIsArch, tokIsBits, hm]
    split at h
    · exact Except.noConfusion h
    · split at h
      · exact Except.noConfusion h
      · split at h
        · exact Except.noConfusion h
        · injection h with h4
          subst h4
          simp_all

lemma parseTokens_ok_counts {toks : List String} {st : ParseState} {u : Target}
    (h : parseTokens st toks = Except.ok u) :
    countOSToks toks + st.os_specified.toNat ≤ 1 ∧
    countArchToks toks + st.arch_specified.toNat ≤ 1 ∧
    countBitsToks toks + st.bits_specified.toNat ≤ 1 := by
  induction toks generalizing st with
  | nil =>
    simp [countOSToks, countArchToks, countBitsToks, List.filter]
    refine ⟨?_, ?_, ?_⟩ <;> [cases st.os_specified; cases st.arch_specified;
      cases st.bits_specified] <;> simp
  | cons a rest ih =>
    unfold parseTokens at h
    cases hs : stepToken st a with
    | error e => rw [hs] at h; exact Except.noConfusion h
    | ok st2 =>
      rw [hs] at h
      obtain ⟨ho, ha, hb⟩ := ih h
      obtain ⟨⟨fo1, fo2⟩, ⟨fa1, fa2⟩, ⟨fb1, fb2⟩⟩ := stepToken_ok_flags hs
      simp only [countOSToks, countArchToks, countBitsToks,
        List.filter_cons] at *
      refine ⟨?_, ?_, ?_⟩
      · cases hq : tokIsOS a <;> cases hp : st.os_specified <;> simp_all
      · cases hq : tokIsArch a <;> cases hp : st.arch_specified <;> simp_all
      · cases hq : tokIsBits a <;> cases hp : st.bits_specified <;> simp_all

lemma stepToken_err_kinds {st : ParseState} {tok : String} {e : ParseError}
    (hrec : recognizedTok tok = true) (h : stepToken st tok = Except.error e) :
    e = ParseError.osTwice ∨ e = ParseError.archTwice ∨
      e = ParseError.bitsTwice := by
  unfold stepToken at h
  cases hm : matchTok tok with
  | none => simp [recognizedTok, hm] at hrec
  | some v =>
    obtain ⟨f, a, o, b⟩ := v
    simp only [hm] at h
    split at h
    · injection h with h4; exact Or.inl h4.symm
    · split at h
      · injection h with h4; exact Or.inr (Or.inl h4.symm)
      · split at h
        · injection h with h4; exact Or.inr (Or.inr h4.symm)
        · exact Except.noConfusion h

lemma parseTokens_err_kinds {toks : List String} {st : ParseState}
    {e : ParseError} (hrec : ∀ tok ∈ toks, recognizedTok tok = true)
    (h : parseTokens st toks = Except.error e) :
    e = ParseError.osTwice ∨ e = ParseError.archTwice ∨
      e = ParseError.bitsTwice := by
  induction toks generalizing st with
  | nil => exact Except.noConfusion h
  | cons a rest ih =>
    unfold parseTokens at h
    cases hs : stepToken st a with
    | error e2 =>
      rw [hs] at h
      injection h with h4
      subst h4
      exact stepToken_err_kinds (hrec a (List.mem_cons_self a rest)) hs
    | ok st2 =>
      rw [hs] at h
      exact ih (fun tok hm => hrec tok (List.mem_cons_of_mem a hm)) h

lemma mem_splitDash_of_doubleDash :
    ∀ (l : List Char) (acc : List Char), hasDoubleDash l = true →
      [] ∈ splitDash l acc := by
  intro l
  induction l with
  | nil => intro acc h; simp [hasDoubleDash] at h
  | cons a tl ih =>
    intro acc h
    cases tl with
    | nil => simp [hasDoubleDash] at h
    | cons b rest =>
      unfold hasDoubleDash at h
      rcases Bool.or_eq_true_iff.mp h with h1 | h2
      · obtain ⟨ha, hb⟩ := Bool.and_eq_true_iff.mp h1
        have ha2 : a = '-' := by simpa using ha
        have hb2 : b = '-' := by simpa using hb
        subst ha2; subst hb2
        simp [splitDash]
      · unfold splitDash
        split
        · exact List.mem_cons_of_mem _ (ih [] h2)
        · exact ih _ h2

lemma mem_splitDash_of_endsDash :
    ∀ (l : List Char) (acc : List Char), endsWithDash l = true →
      [] ∈ splitDash l acc := by
  intro l
  induction l with
  | nil => intro acc h; simp [endsWithDash] at h
  | cons a tl ih =>
    intro acc h
    cases tl with
    | nil =>
      have ha : a = '-' := by simpa [endsWithDash] using h
      subst ha
      simp [splitDash]
    | cons b rest =>
      unfold endsWithDash at h
      unfold splitDash
      split
      · exact List.mem_cons_of_mem _ (ih [] h)
      · exact ih _ h

/-- C4: for every override string containing an unrecognized token, parsing
never returns a Target (fatal termination with no partial result); the
unrecognized-token diagnostic streamed to standard error echoes the full
offending override string together with the expected grammar; and whenever
the parse loop reaches the unrecognized token its outcome is the
unrecognized-token fatal error. -/
theorem unrecognized_token_fatal (host : Target) (s tok : String)
    (h1 : tok ∈ tokensOf s) (h2 : recognizedTok tok = false) :
    (∀ u, get_target_from_environment host (Option.some s) ≠ Except.ok u) ∧
    containsSub s.data (unrecognizedDiagnostic s).data = true ∧
    containsSub expectedGrammar.data (unrecognizedDiagnostic s).data = true ∧
    (∀ st, stepToken st tok = Except.error ParseError.unrecognized) := by
  refine ⟨?_, ?_, ?_, fun st => stepToken_unrec st h2⟩
  · intro u hu
    obtain ⟨e, he⟩ := parseTokens_err_of_unrec h1 h2
      ⟨{ host with features := Features.none }, false, false, false⟩
    exact Except.noConfusion (he.symm.trans hu)
  · rw [diag_data]
    exact containsSub_append_mid _ _ _
  · have hd : (unrecognizedDiagnostic s).data =
        (("Did not understand HL_TARGET=").data ++ s.data ++ ("\n").data) ++
          (expectedGrammar.data ++ []) := by
      unfold unrecognizedDiagnostic
      simp [data_append, List.append_assoc]
    rw [hd]
    exact containsSub_append_mid _ _ _

/-- Witness for C4 at the override string "x86-bogus-64" with its
unrecognized token "bogus" (its diagnostic hence contains "bogus"). -/
theorem unrecognized_token_fatal_witness :
    (("bogus" : String) ∈ tokensOf "x86-bogus-64" ∧
      recognizedTok "bogus" = false) ∧
    ((∀ u, get_target_from_environment hostEx (Option.some "x86-bogus-64") ≠
        Except.ok u) ∧
     containsSub ("x86-bogus-64").data
       (unrecognizedDiagnostic "x86-bogus-64").data = true ∧
     containsSub expectedGrammar.data
       (unrecognizedDiagnostic "x86-bogus-64").data = true ∧
     (∀ st, stepToken st "bogus" = Except.error ParseError.unrecognized)) :=
  ⟨⟨by decide, by decide⟩,
    unrecognized_token_fatal hostEx "x86-bogus-64" "bogus"
      (by decide) (by decide)⟩

lemma stepToken_err_dup {st : ParseState} {tok : String} {e : ParseError}
    (h : stepToken st tok = Except.error e) :
    (e = ParseError.osTwice → tokIsOS tok = true ∧ st.os_specified = true) ∧
    (e = ParseError.archTwice →
      tokIsArch tok = true ∧ st.arch_specified = true) ∧
    (e = ParseError.bitsTwice →
      tokIsBits tok = true ∧ st.bits_specified = true) := by
  unfold stepToken at h
  cases hm : matchTok tok with
  | none =>
    simp only [hm] at h
    injection h with h4
    subst h4
    simp
  | some v =>
    obtain ⟨f, a, o, b⟩ := v
    simp only [hm] at h
    simp only [tokIsOS, tokIsArch, tokIsBits, hm]
    split at h
    · injection h with h4
      subst h4
      simp_all
    · split at h
      · injection h with h4
        subst h4
        simp_all
      · split at h
        · injection h with h4
          subst h4
          simp_all
        · exact Except.noConfusion h

lemma parseTokens_err_dup {toks : List String} {st : ParseState}
    {e : ParseError} (h : parseTokens st toks = Except.error e) :
    (e = ParseError.osTwice →
      2 ≤ countOSToks toks + st.os_specified.toNat) ∧
    (e = ParseError.archTwice →
      2 ≤ countArchToks toks + st.arch_specified.toNat) ∧
    (e = ParseError.bitsTwice →
      2 ≤ countBitsToks toks + st.bits_specified.toNat) := by
  induction toks generalizing st with
  | nil => exact Except.noConfusion h
  | cons a rest ih =>
    unfold parseTokens at h
    cases hs : stepToken st a with
    | error e2 =>
      rw [hs] at h
      injection h with h4
      subst h4
      obtain ⟨d1, d2, d3⟩ := stepToken_err_dup hs
      simp only [countOSToks, countArchToks, countBitsToks, List.filter_cons]
      refine ⟨fun hc => ?_, fun hc => ?_, fun hc => ?_⟩
      · obtain ⟨ht, hst⟩ := d1 hc
        simp [ht, hst]
      · obtain ⟨ht, hst⟩ := d2 hc
        simp [ht, hst]
      · obtain ⟨ht, hst⟩ := d3 hc
        simp [ht, hst]
    | ok st2 =>
      rw [hs] at h
      obtain ⟨d1, d2, d3⟩ := ih h
      obtain ⟨⟨fo1, fo2⟩, ⟨fa1, fa2⟩, ⟨fb1, fb2⟩⟩ := stepToken_ok_flags hs
      simp only [countOSToks, countArchToks, countBitsToks,
        List.filter_cons] at d1 d2 d3 ⊢
      refine ⟨fun hc => ?_, fun hc => ?_, fun hc => ?_⟩
      · have hd := d1 hc
        cases hq : tokIsOS a <;> cases hp : st.os_specified <;> simp_all
      · have hd := d2 hc
        cases hq : tokIsArch a <;> cases hp : st.arch_specified <;> simp_all
      · have hd := d3 hc
        cases hq : tokIsBits a <;> cases hp : st.bits_specified <;> simp_all

/-- C5: for every override string whose token list has more than one OS
token, more than one architecture token, or more than one bits token,
parsing never returns a Target; and when every token of the string is
recognized, the fatal outcome is a duplicate-category error whose cited
category is one actually duplicated in the string, with the diagnostic
message of the corresponding assert (e.g. that the OS was specified
twice). -/
theorem duplicate_category_fatal (host : Target) (s : String)
    (h : 1 < countOSToks (tokensOf s) ∨ 1 < countArchToks (tokensOf s) ∨
         1 < countBitsToks (tokensOf s)) :
    (∀ u, get_target_from_environment host (Option.some s) ≠ Except.ok u) ∧
    ((∀ tok ∈ tokensOf s, recognizedTok tok = true) →
      ∃ e, get_target_from_environment host (Option.some s) =
          Except.error e ∧
        ((e = ParseError.osTwice ∧ 1 < countOSToks (tokensOf s) ∧
           parseErrorMessage s e = "Target string specifies OS twice") ∨
         (e = ParseError.archTwice ∧ 1 < countArchToks (tokensOf s) ∧
           parseErrorMessage s e =
             "Target string specifies architecture twice") ∨
         (e = ParseError.bitsTwice ∧ 1 < countBitsToks (tokensOf s) ∧
           parseErrorMessage s e = "Target string specifies bits twice"))) := by
  have hno : ∀ u, get_target_from_environment host (Option.some s) ≠
      Except.ok u := by
    intro u hu
    have hu2 : parseTokens
        ⟨{ host with features := Features.none }, false, false, false⟩
        (tokensOf s) = Except.ok u := hu
    have hc := parseTokens_ok_counts hu2
    simp [Bool.toNat] at hc
    omega
  refine ⟨hno, fun hrec => ?_⟩
  cases hres : get_target_from_environment host (Option.some s) with
  | ok u => exact absurd hres (hno u)
  | error e =>
    have hres2 : parseTokens
        ⟨{ host with features := Features.none }, false, false, false⟩
        (tokensOf s) = Except.error e := hres
    obtain ⟨d1, d2, d3⟩ := parseTokens_err_dup hres2
    refine ⟨e, rfl, ?_⟩
    rcases parseTokens_err_kinds hrec hres2 with h1 | h1 | h1 <;> subst h1
    · exact Or.inl ⟨rfl, by have := d1 rfl; simp at this; omega, rfl⟩
    · exact Or.inr (Or.inl ⟨rfl, by have := d2 rfl; simp at this; omega, rfl⟩)
    · exact Or.inr (Or.inr ⟨rfl, by have := d3 rfl; simp at this; omega, rfl⟩)

/-- Witness for C5 at the override string "linux-windows", which contains
two OS tokens: the parse outcome is concretely the OS-specified-twice fatal
error with its assert message "Target string specifies OS twice". -/
theorem duplicate_category_fatal_witness :
    (1 < countOSToks (tokensOf "linux-windows") ∨
     1 < countArchToks (tokensOf "linux-windows") ∨
     1 < countBitsToks (tokensOf "linux-windows")) ∧
    get_target_from_environment hostEx (Option.some "linux-windows") =
      Except.error ParseError.osTwice ∧
    parseErrorMessage "linux-windows" ParseError.osTwice =
      "Target string specifies OS twice" ∧
    ((∀ u, get_target_from_environment hostEx (Option.some "linux-windows") ≠
        Except.ok u) ∧
     ((∀ tok ∈ tokensOf "linux-windows", recognizedTok tok = true) →
       ∃ e, get_target_from_environment hostEx (Option.some "linux-windows") =
           Except.error e ∧
         ((e = ParseError.osTwice ∧
            1 < countOSToks (tokensOf "linux-windows") ∧
            parseErrorMessage "linux-windows" e =
              "Target string specifies OS twice") ∨
          (e = ParseError.archTwice ∧
            1 < countArchToks (tokensOf "linux-windows") ∧
            parseErrorMessage "linux-windows" e =
              "Target string specifies architecture twice") ∨
          (e = ParseError.bitsTwice ∧
            1 < countBitsToks (tokensOf "linux-windows") ∧
            parseErrorMessage "linux-windows" e =
              "Target string specifies bits twice")))) :=
  ⟨Or.inl (by decide), rfl, rfl,
    duplicate_category_fatal hostEx "linux-windows" (Or.inl (by decide))⟩

/-- C8: for every override string containing two consecutive hyphens or
ending in a hyphen, tokenization emits the empty segment as a token; the
empty token is matched against the token table like any other and always
yields the unrecognized-token fatal error when the parse loop reaches it;
hence parsing never returns a Target. -/
theorem empty_segment_token_fatal (host : Target) (s : String)
    (h : hasDoubleDash s.data = true ∨ endsWithDash s.data = true) :
    ("" : String) ∈ tokensOf s ∧
    (∀ st, stepToken st "" = Except.error ParseError.unrecognized) ∧
    (∀ u, get_target_from_environment host (Option.some s) ≠ Except.ok u) := by
  have hmem : ("" : String) ∈ tokensOf s := by
    unfold tokensOf
    rcases h with h | h
    · exact List.mem_map.mpr ⟨[], mem_splitDash_of_doubleDash s.data [] h, rfl⟩
    · exact List.mem_map.mpr ⟨[], mem_splitDash_of_endsDash s.data [] h, rfl⟩
  refine ⟨hmem, fun st => rfl, ?_⟩
  intro u hu
  obtain ⟨e, he⟩ := parseTokens_err_of_unrec hmem (by decide)
    ⟨{ host with features := Features.none }, false, false, false⟩
  exact Except.noConfusion (he.symm.trans hu)

/-- Witness for C8 at the override string "x86--64", which contains two
consecutive hyphens. -/
theorem empty_segment_token_fatal_witness :
    (hasDoubleDash ("x86--64").data = true ∨
     endsWithDash ("x86--64").data = true) ∧
    (("" : String) ∈ tokensOf "x86--64" ∧
     (∀ st, stepToken st "" = Except.error ParseError.unrecognized) ∧
     (∀ u, get_target_from_environment hostEx (Option.some "x86--64") ≠
        Except.ok u)) :=
  ⟨Or.inl (by decide),
    empty_segment_token_fatal hostEx "x86--64" (Or.inl (by decide))⟩

/-- C10: the token "host" is not in the recognized token table, so for every
override string containing the segment "host" the parse loop hits the
unrecognized-token fatal error at that token and parsing never returns a
Target — even though the diagnostic's expected-grammar text lists "host"
among both the accepted arch keywords and the accepted os keywords. -/
theorem host_token_rejected (host : Target) (s : String)
    (h : ("host" : String) ∈ tokensOf s) :
    recognizedTok "host" = false ∧
    (∀ st, stepToken st "host" = Except.error ParseError.unrecognized) ∧
    (∀ u, get_target_from_environment host (Option.some s) ≠ Except.ok u) ∧
    containsSub ("arch is host").data expectedGrammar.data = true ∧
    containsSub ("os is host").data expectedGrammar.data = true := by
  refine ⟨by decide, fun st => rfl, ?_, by decide, by decide⟩
  intro u hu
  obtain ⟨e, he⟩ := parseTokens_err_of_unrec h (by decide)
    ⟨{ host with features := Features.none }, false, false, false⟩
  exact Except.noConfusion (he.symm.trans hu)

/-- Witness for C10 at the override string "host". -/
theorem host_token_rejected_witness :
    (("host" : String) ∈ tokensOf "host") ∧
    (recognizedTok "host" = false ∧
     (∀ st, stepToken st "host" = Except.error ParseError.unrecognized) ∧
     (∀ u, get_target_from_environment hostEx (Option.some "host") ≠
        Except.ok u) ∧
     containsSub ("arch is host").data expectedGrammar.data = true ∧
     containsSub ("os is host").data expectedGrammar.data = true) :=
  ⟨by decide, host_token_rejected hostEx "host" (by decide)⟩

end HalideTarget
